import Mathlib

/-!
# Verification of the MemeGenerator repository

A shallow embedding, in Lean 4, of the quote-ingestion and meme-composition
code of the MemeGenerator repository (`src/QuoteEngine/TextIngestor.py`,
`src/MemeEngine/MemeGenerator.py`, `src/main.py`, `src/app.py`), together
with theorems settling the specification claims about it.

Python strings are modelled as `List Char`; Python integers as `Int`/`Nat`
(they are unbounded); fallible operations return `Except`; the two calls to
`random.randint(a, b)` are modelled by an arbitrary integer seed reduced into
the interval `[a, b]`, so that theorems quantify over every possible outcome.
-/

set_option autoImplicit false

/-- Python strings, modelled as lists of characters. -/
abbrev Str := List Char

/-- Shorthand for moving a Lean string literal into the model. -/
def toL (s : String) : Str := s.toList

namespace QuoteEngine

/-- Python `str.split(sep)` for a one-character separator `sep`:
splits at every occurrence, keeping empty pieces, and returns `[""]`
on the empty string.  Used by `input_extension` (`path.split('.')`)
and by the parsers (`line.split("-")`). -/
def splitOnChar (sep : Char) : Str → List Str
  | [] => [[]]
  | c :: cs =>
    match splitOnChar sep cs with
    | [] => [[]]
    | h :: t => if c = sep then [] :: h :: t else (c :: h) :: t

/-- The character class of the regex
`r'[()\"#<>{}`+=~|.!?/@;,¿«»¨>>ï]'` in `IngestorInterface.clean_data`
(`>` appears three times in the class; once suffices). -/
def unwantedChars : List Char :=
  ['(', ')', '\"', '#', '<', '>', Char.ofNat 123, Char.ofNat 125,
   Char.ofNat 96, '+', '=', '~', '|', '.', '!', '?', '/', '@', ';', ',',
   '¿', '«', '»', '¨', 'ï']

/-- Python whitespace, as removed by `str.strip()`: ASCII whitespace,
the C0 separators, and the Unicode space/line/paragraph separators. -/
def isPySpace (c : Char) : Bool :=
  c = ' ' || c = '\t' || c = '\n' || c = '\r' ||
  c.val = 0x0b || c.val = 0x0c ||
  (0x1c ≤ c.val && c.val ≤ 0x1f) ||
  c.val = 0x85 || c.val = 0xa0 || c.val = 0x1680 ||
  (0x2000 ≤ c.val && c.val ≤ 0x200a) ||
  c.val = 0x2028 || c.val = 0x2029 || c.val = 0x202f ||
  c.val = 0x205f || c.val = 0x3000

/-- Python `str.isprintable` on a single character: true unless the
character is a control character or a separator, with the sole
exception of the ASCII space `U+0020`, which is printable. -/
def isPyPrintable (c : Char) : Bool :=
  c = ' ' ||
  (!isPySpace c && 0x20 ≤ c.val && c.val ≠ 0x7f &&
    !(0x80 ≤ c.val && c.val ≤ 0x9f))

/-- Python `str.strip()`: remove leading and trailing whitespace. -/
def pyStrip (l : Str) : Str :=
  List.rdropWhile isPySpace (l.dropWhile isPySpace)

/-- The single-character filter of `clean_data`: a character survives
the regex substitution and the printable filter iff it is not in the
unwanted class and is printable. -/
def keepChar (c : Char) : Bool :=
  !unwantedChars.contains c && isPyPrintable c

/-- `IngestorInterface.clean_data`: delete the unwanted characters
(`re.sub(unwanted_chars, "", text)`), keep only printable characters,
then `strip()` the result. -/
def clean_data (text : Str) : Str :=
  pyStrip (text.filter keepChar)

/-- `QuoteModel`: a quote and its author, both strings, set once in
`__init__` and never reassigned anywhere in the repository. -/
structure QuoteModel where
  quote : Str
  author : Str
  deriving Repr, DecidableEq

/-- `IngestorInterface.input_extension`: `path.split('.')[-1]`. -/
def input_extension (path : Str) : Str :=
  (splitOnChar '.' path).getLast?.getD []

/-- The four format-specific ingestors `Ingestor.parse` can select. -/
inductive Format | csv | docx | txt | pdf
  deriving Repr, DecidableEq

/-- `Ingestor.parse`'s dispatch: select the ingestor by the file
extension, raising (`Except.error`) when none matches.  The selected
ingestor's own parse is applied to the file contents afterwards; which
ingestor runs is all this selector decides. -/
def Ingestor.parse (path : Str) : Except Str Format :=
  let extension := input_extension path
  if extension = toL "csv" then .ok .csv
  else if extension = toL "docx" then .ok .docx
  else if extension = toL "txt" then .ok .txt
  else if extension = toL "pdf" then .ok .pdf
  else .error (toL "No suitable ingestor found")

/-- One line of `IngestorTXT.parse`: when `clean_data(line)` is truthy,
split the raw line on `'-'` and, when there are at least two parts,
build a record from the cleaned first two parts. -/
def txtLine (line : Str) : Option QuoteModel :=
  if clean_data line ≠ [] then
    let parts := splitOnChar '-' line
    if 1 < parts.length then
      some ⟨clean_data (parts.getD 0 []), clean_data (parts.getD 1 [])⟩
    else none
  else none

/-- `IngestorTXT.parse`, on the list of lines read from the file. -/
def IngestorTXT.parse (lines : List Str) : List QuoteModel :=
  lines.filterMap txtLine

/-- One paragraph of `IngestorDOCX.parse`: a nonempty paragraph whose
text splits on `'-'` into exactly two parts yields a record of the two
cleaned parts. -/
def docxLine (text : Str) : Option QuoteModel :=
  if text ≠ [] then
    let parts := splitOnChar '-' text
    if parts.length = 2 then
      some ⟨clean_data (parts.getD 0 []), clean_data (parts.getD 1 [])⟩
    else none
  else none

/-- `IngestorDOCX.parse`, on the list of paragraph texts of the
document. -/
def IngestorDOCX.parse (paragraphs : List Str) : List QuoteModel :=
  paragraphs.filterMap docxLine

/-- One line of `IngestorPDF.parse`: strip the line, split on `'-'`;
`elements[1]` raises `IndexError` when there is no `'-'`, the
exception is caught by the inner `except ... continue`, and the line is
skipped; otherwise the record of the two cleaned parts is kept. -/
def pdfLine (line : Str) : Option QuoteModel :=
  let elements := splitOnChar '-' (pyStrip line)
  if 2 ≤ elements.length then
    some ⟨clean_data (elements.getD 0 []), clean_data (elements.getD 1 [])⟩
  else none

/-- `IngestorPDF.parse`, on the lines of the `pdftotext` output: every
line is processed, failing lines are skipped, and the call returns the
surviving records — it never raises for a line without a `'-'`. -/
def IngestorPDF.parse (lines : List Str) : List QuoteModel :=
  lines.filterMap pdfLine

/-- What claim C5 asserts of the PDF parser (for the refinement
comparison): every error encountered on a line propagates, so a line
whose split has no second element makes the whole parse raise instead
of being skipped. -/
def IngestorPDF.parseStrict (lines : List Str) : Except Str (List QuoteModel) :=
  match lines with
  | [] => .ok []
  | line :: rest =>
    let elements := splitOnChar '-' (pyStrip line)
    if 2 ≤ elements.length then
      match IngestorPDF.parseStrict rest with
      | .ok qs =>
          .ok (⟨clean_data (elements.getD 0 []), clean_data (elements.getD 1 [])⟩ :: qs)
      | .error e => .error e
    else .error (toL "IndexError: list index out of range")

/-- One row of the CSV file, as the parsing library hands it over:
the `body` and `author` cells. -/
structure CsvRow where
  body : Str
  author : Str
  deriving Repr, DecidableEq

/-- `IngestorCSV.parse`: each row is turned into
`QuoteModel(quote=x.body, author=x.author)` — the raw cells, with no
call to `clean_data`. -/
def IngestorCSV.parse (rows : List CsvRow) : List QuoteModel :=
  rows.map fun r => ⟨r.body, r.author⟩

end QuoteEngine

namespace MemeEngine

open QuoteEngine

/-- The `margin = 10` of `make_meme`. -/
def margin : Int := 10

/-- `self.font_size = 30`, set by `prepare_fonts`. -/
def font_size : Int := 30

/-- `max_x = max(margin, img_width - max_text_width)` of `make_meme`. -/
def max_x (img_width max_text_width : Int) : Int :=
  max margin (img_width - max_text_width)

/-- `max_y = max(margin + self.font_size, img_height - 2 * self.font_size)`
of `make_meme`. -/
def max_y (img_height : Int) : Int :=
  max (margin + font_size) (img_height - 2 * font_size)

/-- One outcome of `random.randint(a, b)` (`a ≤ b`): the seed `r`
reduced into `[a, b]`.  As `r` ranges over the integers this ranges
over exactly the values `randint` can return. -/
def randint (a b r : Int) : Int := a + r % (b - a + 1)

/-- The x coordinate `make_meme` draws at: `randint(margin, max_x)`
when `max_x > margin`, else `margin`. -/
def chooseX (img_width text_width author_width r : Int) : Int :=
  let mx := max_x img_width (max text_width author_width)
  if mx > margin then randint margin mx r else margin

/-- The y coordinate `make_meme` draws at:
`randint(margin + font_size, max_y)` when `max_y > margin + font_size`,
else `margin + font_size`. -/
def chooseY (img_height r : Int) : Int :=
  let my := max_y img_height
  if my > margin + font_size then randint (margin + font_size) my r else margin + font_size

/-- The quote is drawn at `(x, y)` with anchor `'lb'` (left-bottom), so
its box spans `[x, x + text_width] × [y - quote_height, y]`; it lies in
a `w × h` image iff these hold. -/
abbrev quoteInBounds (w h text_width quote_height x y : Int) : Prop :=
  0 ≤ x ∧ x + text_width ≤ w ∧ 0 ≤ y - quote_height ∧ y ≤ h

/-- The author line is drawn at `(x, y + 5)` with anchor `'lt'`
(left-top), so its box spans
`[x, x + author_width] × [y + 5, y + 5 + author_height]`. -/
abbrev authorInBounds (w h author_width author_height x y : Int) : Prop :=
  0 ≤ x ∧ x + author_width ≤ w ∧ 0 ≤ y + 5 ∧ y + 5 + author_height ≤ h

/-- The width clamp of `load_and_resize_image`:
`if width > 500 or width < 1: width = 500`. -/
def clampWidth (width : Int) : Int :=
  if width > 500 ∨ width < 1 then 500 else width

/-- `load_and_resize_image`'s size computation on an
`original_width × original_height` image: clamp the width, then
`new_height = int(width * (original_height / original_width))`, the
aspect-ratio division taken exactly (`int` truncation of a positive
value is the floor, i.e. `Nat` division). -/
def load_and_resize_image (original_width original_height : Nat) (width : Int) : Nat × Nat :=
  let w := (clampWidth width).toNat
  (w, w * original_height / original_width)

/-- `f"- {author}"`, the author overlay text. -/
def dashAuthor (author : Str) : Str := '-' :: ' ' :: author

/-- Python `pathlib.Path` components of a relative path: split on `/`,
dropping empty components and `.` components. -/
def pathParts (s : Str) : List Str :=
  (splitOnChar '/' s).filter fun p => p ≠ [] ∧ p ≠ ['.']

/-- `Path(s).name`: the final path component (empty when there is
none). -/
def pathName (s : Str) : Str := (pathParts s).getLast?.getD []

/-- `str(Path(s))` for a relative path: the components joined by `/`. -/
def pathStr (s : Str) : Str :=
  match pathParts s with
  | [] => ['.']
  | p :: ps => ps.foldl (fun acc q => acc ++ '/' :: q) p

/-- The directory `make_meme` actually saves into:
`tempfile.NamedTemporaryFile(dir=output_folder.name, ...)` passes
`Path(self.output_dir).name` — only the final component — as the
directory. -/
def saveDir (output_dir : Str) : Str := pathName output_dir

/-- The path `make_meme` returns:
`str(output_folder) + "/" + str(Path(output_path_complete).name)`. -/
def returnedPath (output_dir fname : Str) : Str :=
  pathStr output_dir ++ '/' :: fname

/-- The path the image file is written to: the temporary file name lives
in `saveDir`, and `self.image.save` writes there. -/
def savedPath (output_dir fname : Str) : Str :=
  saveDir output_dir ++ '/' :: fname

/-- The observable result of `make_meme`: the resized image dimensions,
the text overlays drawn on it in order, the path the file is written
to, and the path returned to the caller. -/
structure MemeResult where
  size : Nat × Nat
  overlays : List (Str × Int × Int)
  savedAt : Str
  returned : Str
  deriving Repr, DecidableEq

/-- `make_meme` on an image of size `ow × oh`: resize, compute the
layout from the text box widths `tw`/`aw` reported by the drawing
library and the random seeds `rx`/`ry`, draw the quote at `(x, y)` and
`- author` at `(x, y + 5)`, and save under a fresh temporary name
`fname`. -/
def make_meme (output_dir : Str) (ow oh : Nat) (text author : Str)
    (width tw aw rx ry : Int) (fname : Str) : MemeResult :=
  let (nw, nh) := load_and_resize_image ow oh width
  let x := chooseX (nw : Int) tw aw rx
  let y := chooseY (nh : Int) ry
  { size := (nw, nh)
    overlays := [(text, x, y), (dashAuthor author, x, y + 5)]
    savedAt := savedPath output_dir fname
    returned := returnedPath output_dir fname }

/-- `make_meme` as its callers see it: `load_and_resize_image` opens the
image file first, and a missing or unreadable file raises
(`except FileNotFoundError ... raise` / `except OSError ... raise`);
`make_meme`'s own `except Exception` prints and re-raises, so the error
propagates to the caller. -/
def make_memeE (output_dir : Str) (img : Option (Nat × Nat)) (text author : Str)
    (width tw aw rx ry : Int) (fname : Str) : Except Str MemeResult :=
  match img with
  | none => .error (toL "FileNotFoundError")
  | some (ow, oh) => .ok (make_meme output_dir ow oh text author width tw aw rx ry fname)

end MemeEngine

namespace Pipeline

open QuoteEngine MemeEngine

/-- The observable steps of the meme-generation pipeline, in the order
the code performs them. -/
inductive Event
  | parseFile | pickQuote | resizeImage | drawText | saveFile
  deriving Repr, DecidableEq

/-- The steps of `MemeGenerator.make_meme`, in source order: resize the
image, draw the quote, draw the author line, save the file. -/
def makeMemeTrace : List Event :=
  [.resizeImage, .drawText, .drawText, .saveFile]

/-- The steps of `main.generate_meme` on the no-body path: parse each
quote file in turn, pick a random quote, then run `make_meme`. -/
def generateMemeTrace (numQuoteFiles : Nat) : List Event :=
  List.replicate numQuoteFiles .parseFile ++ [.pickQuote] ++ makeMemeTrace

/-- One outcome of `random.choice(quotes)` in `main.generate_meme`,
selected by the index `i`. -/
def pickQuote (quotes : List QuoteModel) (i : Nat) : Option QuoteModel :=
  quotes.get? i

/-- `main.generate_meme`, body `None` path, with the quotes read from a
TXT source: parse the lines into records, pick the record at `i`, and
hand its `quote.quote` and `quote.author` unchanged to `make_meme`.
`None` when the pick is out of range. -/
def generate_meme (quoteLines : List Str) (i : Nat) (ow oh : Nat)
    (width tw aw rx ry : Int) (fname : Str) : Option MemeResult :=
  match pickQuote (IngestorTXT.parse quoteLines) i with
  | none => none
  | some q =>
      some (make_meme (toL "./tmp") ow oh q.quote q.author width tw aw rx ry fname)

/-- A response of the `/create` POST handler `meme_post`: either
`("...", 400)` or the rendered `meme.html` with the meme path. -/
inductive Response
  | badRequest (msg : Str)
  | rendered (path : Str)
  deriving Repr, DecidableEq

/-- Python truthiness of `request.form.get(...)`: falsy when the field
is absent (`None`) or the empty string. -/
def falsyForm : Option Str → Bool
  | none => true
  | some s => s.isEmpty

/-- `app.meme_post`: return 400 when `image_url`, `body` or `author` is
missing or empty; fetch the image and return 400 when the status is not
200; otherwise write the fetched bytes to a temporary file, run
`make_meme` on it, and render `meme.html` with the returned path. -/
def meme_post (image_url body author : Option Str) (status : Nat)
    (fetchedImg : Nat × Nat) (width tw aw rx ry : Int) (fname : Str) : Response :=
  if falsyForm image_url || falsyForm body || falsyForm author then
    .badRequest (toL "Missing info.")
  else if status ≠ 200 then
    .badRequest (toL "Error getting the image")
  else
    .rendered (make_meme (toL "./static") fetchedImg.1 fetchedImg.2
      ((body.getD []) ) ((author.getD [])) width tw aw rx ry fname).returned

end Pipeline

/-! ## Supporting lemmas -/

namespace QuoteEngine

theorem pyStrip_subset {l : Str} : pyStrip l ⊆ l := fun _ hc =>
  (List.dropWhile_suffix isPySpace).subset
    ((List.rdropWhile_prefix isPySpace _).subset hc)

theorem dropWhile_head?_false (p : Char → Bool) :
    ∀ l : Str, ∀ c ∈ (l.dropWhile p).head?, p c = false
  | [] => by simp [List.dropWhile]
  | a :: l => by
    intro c hc
    rw [List.dropWhile_cons] at hc
    by_cases hpa : p a
    · rw [if_pos hpa] at hc
      exact dropWhile_head?_false p l c hc
    · rw [if_neg hpa] at hc
      simp only [List.head?_cons, Option.mem_def, Option.some.injEq] at hc
      subst hc
      simpa using hpa

theorem pyStrip_head?_false {l : Str} : ∀ c ∈ (pyStrip l).head?, isPySpace c = false := by
  intro c hc
  obtain ⟨t, ht⟩ := List.rdropWhile_prefix isPySpace (l.dropWhile isPySpace)
  rcases h : pyStrip l with _ | ⟨a, m⟩
  · rw [h] at hc
    simp at hc
  · rw [h] at hc
    simp only [List.head?_cons, Option.mem_def, Option.some.injEq] at hc
    subst hc
    apply dropWhile_head?_false isPySpace l
    unfold pyStrip at h
    rw [h] at ht
    rw [← ht]
    simp

theorem pyStrip_getLast?_false {l : Str} : ∀ c ∈ (pyStrip l).getLast?, isPySpace c = false := by
  intro c hc
  rcases h : pyStrip l with _ | ⟨a, m⟩
  · rw [h] at hc
    simp at hc
  · have hne : pyStrip l ≠ [] := by rw [h]; simp
    rw [List.getLast?_eq_getLast _ hne] at hc
    simp only [Option.mem_def, Option.some.injEq] at hc
    subst hc
    have := List.rdropWhile_last_not isPySpace (l.dropWhile isPySpace) hne
    simpa using this

theorem dropWhile_eq_self_of_head?_false {p : Char → Bool} {l : Str}
    (h : ∀ c ∈ l.head?, p c = false) : l.dropWhile p = l := by
  cases l with
  | nil => rfl
  | cons a m =>
    rw [List.dropWhile_cons, if_neg]
    simp [h a (by simp)]

theorem pyStrip_idempotent (l : Str) : pyStrip (pyStrip l) = pyStrip l := by
  show List.rdropWhile _ (List.dropWhile _ (pyStrip l)) = pyStrip l
  rw [dropWhile_eq_self_of_head?_false pyStrip_head?_false]
  unfold pyStrip
  exact List.rdropWhile_idempotent _ _

theorem keepChar_of_mem_clean_data {c : Char} {s : Str} (h : c ∈ clean_data s) :
    keepChar c = true :=
  List.of_mem_filter (pyStrip_subset h)

theorem clean_data_idempotent (s : Str) : clean_data (clean_data s) = clean_data s := by
  unfold clean_data
  have h1 : (pyStrip (s.filter keepChar)).filter keepChar = pyStrip (s.filter keepChar) :=
    List.filter_eq_self.mpr fun a ha => List.of_mem_filter (pyStrip_subset ha)
  rw [h1, pyStrip_idempotent]

end QuoteEngine

/-! ## The claims -/

open QuoteEngine MemeEngine Pipeline

theorem splitOnChar_ne_nil (sep : Char) : ∀ l : Str, splitOnChar sep l ≠ []
  | [] => by simp [splitOnChar]
  | c :: cs => by
    simp only [splitOnChar]
    rcases h : splitOnChar sep cs with _ | ⟨hd, t⟩
    · simp
    · by_cases hc : c = sep <;> simp [hc]

theorem splitOnChar_of_not_mem {sep : Char} : ∀ {l : Str}, sep ∉ l → splitOnChar sep l = [l]
  | [], _ => rfl
  | c :: cs, h => by
    have hcs : sep ∉ cs := fun hm => h (List.mem_cons_of_mem _ hm)
    have hc : ¬ c = sep := fun e => h (e ▸ List.mem_cons_self _ _)
    simp only [splitOnChar, splitOnChar_of_not_mem hcs]
    simp [hc]

theorem two_le_splitOnChar_length {sep : Char} : ∀ {l : Str}, sep ∈ l →
    2 ≤ (splitOnChar sep l).length
  | [], h => by simp at h
  | c :: cs, h => by
    simp only [splitOnChar]
    rcases hs : splitOnChar sep cs with _ | ⟨hd, t⟩
    · exact absurd hs (splitOnChar_ne_nil sep cs)
    · by_cases hc : c = sep
      · simp [hc]
      · have hmem : sep ∈ cs := by
          rcases List.mem_cons.mp h with h1 | h1
          · exact absurd h1.symm hc
          · exact h1
        have h2 := two_le_splitOnChar_length hmem
        rw [hs] at h2
        simp only [List.length_cons] at h2 ⊢
        simp [hc]
        omega

theorem getLast?_splitOnChar_append (sep : Char) (b : Str) : ∀ a : Str,
    (splitOnChar sep (a ++ sep :: b)).getLast? = (splitOnChar sep (sep :: b)).getLast?
  | [] => rfl
  | c :: a => by
    have ih := getLast?_splitOnChar_append sep b a
    rw [← ih]
    conv_lhs => rw [List.cons_append, splitOnChar]
    rcases hs : splitOnChar sep (a ++ sep :: b) with _ | ⟨hd, t⟩
    · exact absurd hs (splitOnChar_ne_nil _ _)
    · have h2 := two_le_splitOnChar_length
        (List.mem_append_right a (List.mem_cons_self sep b))
      rw [hs] at h2
      rcases t with _ | ⟨u, t'⟩
      · simp at h2
      · by_cases hc : c = sep <;> simp [hc, List.getLast?_cons_cons]

theorem input_extension_after_last_dot {a b : Str} (h : '.' ∉ b) :
    input_extension (a ++ '.' :: b) = b := by
  unfold input_extension
  rw [getLast?_splitOnChar_append]
  show ((splitOnChar '.' ('.' :: b)).getLast?).getD [] = b
  simp only [splitOnChar, splitOnChar_of_not_mem h]
  simp

/-- C2: `Ingestor.parse` dispatches on the file extension — the substring
after the last `'.'` of the path — delegating the extensions `csv`, `docx`,
`txt` and `pdf` to the corresponding ingestor and raising for every other
extension. -/
theorem c2_dispatch (path a b : Str) :
    ('.' ∉ b → input_extension (a ++ '.' :: b) = b) ∧
    (input_extension path = toL "csv" → Ingestor.parse path = .ok .csv) ∧
    (input_extension path = toL "docx" → Ingestor.parse path = .ok .docx) ∧
    (input_extension path = toL "txt" → Ingestor.parse path = .ok .txt) ∧
    (input_extension path = toL "pdf" → Ingestor.parse path = .ok .pdf) ∧
    (input_extension path ∉ [toL "csv", toL "docx", toL "txt", toL "pdf"] →
      Ingestor.parse path = .error (toL "No suitable ingestor found")) := by
  refine ⟨fun h => input_extension_after_last_dot h, ?_, ?_, ?_, ?_, ?_⟩
  · intro h
    unfold Ingestor.parse
    rw [h]
    rfl
  · intro h
    unfold Ingestor.parse
    rw [h]
    rfl
  · intro h
    unfold Ingestor.parse
    rw [h]
    rfl
  · intro h
    unfold Ingestor.parse
    rw [h]
    rfl
  · intro h
    simp only [List.mem_cons, List.not_mem_nil, or_false, not_or] at h
    obtain ⟨h1, h2, h3, h4⟩ := h
    unfold Ingestor.parse
    rw [if_neg h1, if_neg h2, if_neg h3, if_neg h4]

/-- C2 witness: the path `_data/DogQuotes/DogQuotesTXT.txt` has extension
`txt` and is delegated to the TXT ingestor; the extension `jpg` raises. -/
theorem c2_witness :
    input_extension (toL "_data/DogQuotes/DogQuotesTXT" ++ '.' :: toL "txt") = toL "txt" ∧
    Ingestor.parse (toL "_data/DogQuotes/DogQuotesTXT.txt") = .ok .txt ∧
    Ingestor.parse (toL "photo.jpg") = .error (toL "No suitable ingestor found") :=
  ⟨(c2_dispatch [] [] (toL "txt")).1 (by decide),
   (c2_dispatch (toL "_data/DogQuotes/DogQuotesTXT.txt") [] []).2.2.2.1 (by decide),
   (c2_dispatch (toL "photo.jpg") [] []).2.2.2.2.2 (by decide)⟩

/-- C3 counterexample: the CSV ingestor hands the pandas cells straight to
`QuoteModel` — the quote field `"To be or not to be!"` keeps its `'!'`,
whereas `clean_data` would have removed it, so not every parser applies the
cleaning regex. -/
theorem c3_counterexample :
    IngestorCSV.parse [⟨toL "To be or not to be!", toL "Bill"⟩] =
      [⟨toL "To be or not to be!", toL "Bill"⟩] ∧
    clean_data (toL "To be or not to be!") ≠ toL "To be or not to be!" := by
  constructor
  · rfl
  · decide

/-- C3 amended: the TXT, DOCX and PDF parsers apply `clean_data` to both
fields of every record they return — each field is `clean_data` of the
corresponding part of the split source line — while the CSV parser returns
the raw `body` and `author` cells unchanged, with no cleaning. -/
theorem c3_parsers_clean_fields :
    (∀ lines q, q ∈ IngestorTXT.parse lines → ∃ line ∈ lines,
      q.quote = clean_data ((splitOnChar '-' line).getD 0 []) ∧
      q.author = clean_data ((splitOnChar '-' line).getD 1 [])) ∧
    (∀ paragraphs q, q ∈ IngestorDOCX.parse paragraphs → ∃ text ∈ paragraphs,
      q.quote = clean_data ((splitOnChar '-' text).getD 0 []) ∧
      q.author = clean_data ((splitOnChar '-' text).getD 1 [])) ∧
    (∀ lines q, q ∈ IngestorPDF.parse lines → ∃ line ∈ lines,
      q.quote = clean_data ((splitOnChar '-' (pyStrip line)).getD 0 []) ∧
      q.author = clean_data ((splitOnChar '-' (pyStrip line)).getD 1 [])) ∧
    (∀ rows, IngestorCSV.parse rows = rows.map fun r => ⟨r.body, r.author⟩) := by
  refine ⟨?_, ?_, ?_, fun _ => rfl⟩
  · intro lines q hq
    rcases List.mem_filterMap.mp hq with ⟨line, hline, hparse⟩
    refine ⟨line, hline, ?_⟩
    simp only [txtLine] at hparse
    split_ifs at hparse
    simp only [Option.some.injEq] at hparse
    rw [← hparse]
    exact ⟨rfl, rfl⟩
  · intro paragraphs q hq
    rcases List.mem_filterMap.mp hq with ⟨text, htext, hparse⟩
    refine ⟨text, htext, ?_⟩
    simp only [docxLine] at hparse
    split_ifs at hparse
    simp only [Option.some.injEq] at hparse
    rw [← hparse]
    exact ⟨rfl, rfl⟩
  · intro lines q hq
    rcases List.mem_filterMap.mp hq with ⟨line, hline, hparse⟩
    refine ⟨line, hline, ?_⟩
    simp only [pdfLine] at hparse
    split_ifs at hparse
    simp only [Option.some.injEq] at hparse
    rw [← hparse]
    exact ⟨rfl, rfl⟩

/-- C3 witness: the theorem applied to the TXT file line
`"To be - Bill?"`, whose record is the cleaned pair `("To be", "Bill")`. -/
theorem c3_witness :
    ∃ line ∈ [toL "To be - Bill?"],
      (QuoteModel.mk (toL "To be") (toL "Bill")).quote
        = clean_data ((splitOnChar '-' line).getD 0 []) ∧
      (QuoteModel.mk (toL "To be") (toL "Bill")).author
        = clean_data ((splitOnChar '-' line).getD 1 []) :=
  c3_parsers_clean_fields.1 [toL "To be - Bill?"] ⟨toL "To be", toL "Bill"⟩ (by decide)

/-- C5 counterexample: the line `"hello"` of a PDF's extracted text has no
`'-'`; the claim's strict reading would propagate the `IndexError`, but
`IngestorPDF.parse` catches it, skips the line, and returns normally. -/
theorem c5_counterexample :
    IngestorPDF.parse [toL "hello"] = [] ∧
    IngestorPDF.parseStrict [toL "hello"] =
      .error (toL "IndexError: list index out of range") := by
  constructor
  · decide
  · rfl

/-- C5 amended: errors during ingestion and meme composition propagate to
the caller — a missing image makes `make_meme` raise, an unsupported
extension makes `Ingestor.parse` raise — with one exception: the PDF
parser catches per-line indexing errors (a line without `'-'`) and skips
that line, continuing with the rest instead of raising. -/
theorem c5_errors_propagate (output_dir text author : Str)
    (width tw aw rx ry : Int) (fname path line : Str) (lines : List Str) :
    make_memeE output_dir none text author width tw aw rx ry fname =
      .error (toL "FileNotFoundError") ∧
    (input_extension path ∉ [toL "csv", toL "docx", toL "txt", toL "pdf"] →
      Ingestor.parse path = .error (toL "No suitable ingestor found")) ∧
    ((splitOnChar '-' (pyStrip line)).length < 2 →
      IngestorPDF.parse (line :: lines) = IngestorPDF.parse lines) := by
  refine ⟨rfl, ?_, ?_⟩
  · intro h
    simp only [List.mem_cons, List.not_mem_nil, or_false, not_or] at h
    obtain ⟨h1, h2, h3, h4⟩ := h
    unfold Ingestor.parse
    rw [if_neg h1, if_neg h2, if_neg h3, if_neg h4]
  · intro h
    have hnone : pdfLine line = none := by
      unfold pdfLine
      rw [if_neg (by omega)]
    simp [IngestorPDF.parse, List.filterMap_cons, hnone]

/-- C5 witness: the theorem applied at the extension `jpg` and the
dash-less extracted line `"hello"`. -/
theorem c5_witness :
    make_memeE (toL "./tmp") none (toL "q") (toL "au") 500 50 40 0 0 (toL "m.jpg") =
      .error (toL "FileNotFoundError") ∧
    Ingestor.parse (toL "photo.jpg") = .error (toL "No suitable ingestor found") ∧
    IngestorPDF.parse [toL "hello", toL "a - b"] = IngestorPDF.parse [toL "a - b"] :=
  ⟨(c5_errors_propagate (toL "./tmp") (toL "q") (toL "au") 500 50 40 0 0 (toL "m.jpg")
      (toL "photo.jpg") (toL "hello") [toL "a - b"]).1,
   (c5_errors_propagate (toL "./tmp") (toL "q") (toL "au") 500 50 40 0 0 (toL "m.jpg")
      (toL "photo.jpg") (toL "hello") [toL "a - b"]).2.1 (by decide),
   (c5_errors_propagate (toL "./tmp") (toL "q") (toL "au") 500 50 40 0 0 (toL "m.jpg")
      (toL "photo.jpg") (toL "hello") [toL "a - b"]).2.2 (by decide)⟩

/-- C4: a quote record is a pair of strings fixed at construction; the
pipeline consumes it read-only — the texts `make_meme` draws are exactly the
`quote` and (prefixed with `"- "`) the `author` of the record the ingestor
built, unchanged. -/
theorem c4_record_immutable (quoteLines : List Str) (i : Nat) (ow oh : Nat)
    (width tw aw rx ry : Int) (fname : Str) (q : QuoteModel)
    (hq : (IngestorTXT.parse quoteLines).get? i = some q) :
    ∃ r, generate_meme quoteLines i ow oh width tw aw rx ry fname = some r ∧
      r.overlays.map Prod.fst = [q.quote, dashAuthor q.author] := by
  refine ⟨make_meme (toL "./tmp") ow oh q.quote q.author width tw aw rx ry fname, ?_, ?_⟩
  · unfold generate_meme Pipeline.pickQuote
    rw [hq]
  · simp [make_meme, load_and_resize_image]

/-- C4 witness: the theorem applied to the single TXT line
`"To be - Bill"`, whose record `("To be", "Bill")` reaches the drawing call
unchanged. -/
theorem c4_witness :
    ∃ r, generate_meme [toL "To be - Bill"] 0 400 300 500 50 40 0 0 (toL "m.jpg") = some r ∧
      r.overlays.map Prod.fst =
        [(QuoteModel.mk (toL "To be") (toL "Bill")).quote,
         dashAuthor (QuoteModel.mk (toL "To be") (toL "Bill")).author] :=
  c4_record_immutable [toL "To be - Bill"] 0 400 300 500 50 40 0 0 (toL "m.jpg")
    ⟨toL "To be", toL "Bill"⟩ (by decide)

theorem generateMemeTrace_get (n k : Nat) :
    (generateMemeTrace n).get? k =
      if k < n then some Event.parseFile
      else if k = n then some Event.pickQuote
      else if k = n + 1 then some Event.resizeImage
      else if k = n + 2 ∨ k = n + 3 then some Event.drawText
      else if k = n + 4 then some Event.saveFile
      else none := by
  unfold generateMemeTrace makeMemeTrace
  rw [List.get?_eq_getElem?, List.append_assoc]
  by_cases h1 : k < n
  · rw [List.getElem?_append_left (by simpa using h1)]
    simp [List.getElem?_replicate, h1]
  · have hkn : n ≤ k := Nat.le_of_not_lt h1
    rw [List.getElem?_append_right (by simpa using hkn)]
    simp only [List.length_replicate, List.singleton_append]
    rcases hm : k - n with _ | _ | _ | _ | _ | m
    · have hk : k = n := by omega
      subst hk
      simp
    · have hk : k = n + 1 := by omega
      subst hk
      simp
    · have hk : k = n + 2 := by omega
      subst hk
      simp
    · have hk : k = n + 3 := by omega
      subst hk
      simp
    · have hk : k = n + 4 := by omega
      subst hk
      simp
    · have hk : n + 5 ≤ k := by omega
      rw [List.getElem?_eq_none (by simp)]
      split_ifs <;> first | omega | rfl

/-- C6: in the pipeline trace of `generate_meme` (parse each quote file,
pick a random entry, then `make_meme`: resize, draw the two texts, save),
every parse step precedes the random pick, the pick precedes the resize,
the image is never drawn on before it is resized, and the file is never
saved before both text blocks are drawn. -/
theorem c6_step_order (n i j : Nat) :
    ((generateMemeTrace n).get? j = some Event.parseFile →
      (generateMemeTrace n).get? i = some Event.pickQuote → j < i) ∧
    ((generateMemeTrace n).get? j = some Event.pickQuote →
      (generateMemeTrace n).get? i = some Event.resizeImage → j < i) ∧
    ((generateMemeTrace n).get? j = some Event.resizeImage →
      (generateMemeTrace n).get? i = some Event.drawText → j < i) ∧
    ((generateMemeTrace n).get? j = some Event.drawText →
      (generateMemeTrace n).get? i = some Event.saveFile → j < i) := by
  refine ⟨?_, ?_, ?_, ?_⟩ <;>
    · intro h1 h2
      rw [generateMemeTrace_get] at h1 h2
      split_ifs at h1 h2 <;>
        first
          | omega
          | exact absurd h1 (by decide)
          | exact absurd h2 (by decide)

/-- C6 witness: with one quote file the trace is
`[parse, pick, resize, draw, draw, save]`; the theorem applied at its
concrete indices. -/
theorem c6_witness : 0 < 1 ∧ 1 < 2 ∧ 2 < 3 ∧ 4 < 5 :=
  ⟨(c6_step_order 1 1 0).1 rfl rfl,
   (c6_step_order 1 2 1).2.1 rfl rfl,
   (c6_step_order 1 3 2).2.2.1 rfl rfl,
   (c6_step_order 1 5 4).2.2.2 rfl rfl⟩

/-- C9: `clean_data` is idempotent, and its result contains no character of
the unwanted class, no non-printable character, and no leading or trailing
whitespace. -/
theorem c9_clean_data_idempotent_clean (s : Str) :
    clean_data (clean_data s) = clean_data s ∧
    (∀ c ∈ clean_data s, c ∉ unwantedChars ∧ isPyPrintable c = true) ∧
    (∀ c ∈ (clean_data s).head?, isPySpace c = false) ∧
    (∀ c ∈ (clean_data s).getLast?, isPySpace c = false) := by
  refine ⟨clean_data_idempotent s, ?_, ?_, ?_⟩
  · intro c hc
    have hk := keepChar_of_mem_clean_data hc
    unfold keepChar at hk
    simp only [Bool.and_eq_true, Bool.not_eq_true', List.contains_eq_any_beq,
      List.any_eq_false, beq_iff_eq] at hk
    exact ⟨fun hmem => hk.1 c hmem rfl, hk.2⟩
  · exact fun c hc => pyStrip_head?_false c hc
  · exact fun c hc => pyStrip_getLast?_false c hc

/-- C9 witness: the theorem applied at the concrete input `" a b! "`,
whose cleaned form is `"a b"` and contains `'a'`. -/
theorem c9_witness :
    clean_data (clean_data (toL " a b! ")) = clean_data (toL " a b! ") ∧
    ('a' ∉ unwantedChars ∧ isPyPrintable 'a' = true) :=
  ⟨(c9_clean_data_idempotent_clean (toL " a b! ")).1,
   (c9_clean_data_idempotent_clean (toL " a b! ")).2.1 'a' (by decide)⟩

/-- C8: `load_and_resize_image` clamps the requested width to 500 when it is
over 500 or under 1 and keeps it otherwise, and the new height is the floor
of `new_width * original_height / original_width` (characterized by the two
division inequalities). -/
theorem c8_load_and_resize_image (ow oh : Nat) (w : Int) (how : 0 < ow) :
    ((500 < w ∨ w < 1) → (load_and_resize_image ow oh w).1 = 500) ∧
    (1 ≤ w → w ≤ 500 → (load_and_resize_image ow oh w).1 = w.toNat) ∧
    (load_and_resize_image ow oh w).2 * ow ≤ (load_and_resize_image ow oh w).1 * oh ∧
    (load_and_resize_image ow oh w).1 * oh < ((load_and_resize_image ow oh w).2 + 1) * ow := by
  refine ⟨?_, ?_, ?_, ?_⟩
  · intro h
    unfold load_and_resize_image clampWidth
    rw [if_pos h]
    rfl
  · intro h1 h2
    unfold load_and_resize_image clampWidth
    rw [if_neg (by omega)]
  · exact Nat.div_mul_le_self _ _
  · exact (Nat.div_lt_iff_lt_mul how).mp (Nat.lt_succ_self _)

/-- C8 witness: requested width 800 on a 400 × 300 image is clamped to 500;
requested width 250 is kept, with height `250 * 300 / 400 = 187`. -/
theorem c8_witness :
    (load_and_resize_image 400 300 800).1 = 500 ∧
    (load_and_resize_image 400 300 250).1 = 250 ∧
    (load_and_resize_image 400 300 250).2 * 400 ≤ 250 * 300 :=
  ⟨(c8_load_and_resize_image 400 300 800 (by decide)).1 (by decide),
   (c8_load_and_resize_image 400 300 250 (by decide)).2.1 (by decide) (by decide),
   by
    have h := (c8_load_and_resize_image 400 300 250 (by decide)).2.2.1
    have h1 := (c8_load_and_resize_image 400 300 250 (by decide)).2.1 (by decide) (by decide)
    rw [h1] at h
    exact h⟩

/-- C1 counterexample: on a 500 × 500 resized image with a quote whose
rendered width is 600, `make_meme` falls back to `x = margin = 10`, and the
quote box `[10, 610]` sticks out of the image — the claim fails as stated. -/
theorem c1_counterexample :
    ¬ quoteInBounds 500 500 600 20 (chooseX 500 600 50 0) (chooseY 500 0) := by
  decide

theorem chooseX_bounds (w tw aw r : Int) :
    margin ≤ chooseX w tw aw r ∧ chooseX w tw aw r ≤ max_x w (max tw aw) := by
  unfold chooseX randint
  by_cases h : max_x w (max tw aw) > margin
  · rw [if_pos h]
    have hm : (0 : Int) < max_x w (max tw aw) - margin + 1 := by omega
    have h1 := Int.emod_nonneg r (by omega : max_x w (max tw aw) - margin + 1 ≠ 0)
    have h2 := Int.emod_lt_of_pos r hm
    omega
  · rw [if_neg h]
    exact ⟨le_refl _, le_max_left _ _⟩

theorem chooseY_bounds (h r : Int) :
    margin + font_size ≤ chooseY h r ∧ chooseY h r ≤ max_y h := by
  unfold chooseY randint
  by_cases hc : max_y h > margin + font_size
  · rw [if_pos hc]
    have hm : (0 : Int) < max_y h - (margin + font_size) + 1 := by omega
    have h1 := Int.emod_nonneg r (by omega : max_y h - (margin + font_size) + 1 ≠ 0)
    have h2 := Int.emod_lt_of_pos r hm
    omega
  · rw [if_neg hc]
    exact ⟨le_refl _, le_max_left _ _⟩

/-- C1 amended: the randomized positions keep both text blocks inside the
resized image for every random outcome, provided the blocks fit — the wider
text block leaves at least the margin horizontally, the quote's rendered
height is at most `margin + font_size`, and the author block still fits below
the lowest possible baseline. -/
theorem c1_no_clipping_amended (w h tw aw qh ah rx ry : Int)
    (hah : 0 ≤ ah)
    (hfit : max tw aw + margin ≤ w)
    (hq : qh ≤ margin + font_size)
    (ha : max_y h + 5 + ah ≤ h) :
    quoteInBounds w h tw qh (chooseX w tw aw rx) (chooseY h ry) ∧
    authorInBounds w h aw ah (chooseX w tw aw rx) (chooseY h ry) := by
  obtain ⟨hx1, hx2⟩ := chooseX_bounds w tw aw rx
  obtain ⟨hy1, hy2⟩ := chooseY_bounds h ry
  have hmx : max_x w (max tw aw) = w - max tw aw := by
    unfold max_x
    exact max_eq_right (by omega)
  rw [hmx] at hx2
  have htw : tw ≤ max tw aw := le_max_left _ _
  have haw : aw ≤ max tw aw := le_max_right _ _
  have hmarg : margin = 10 := rfl
  have hfs : font_size = 30 := rfl
  refine ⟨⟨by omega, by omega, by omega, by omega⟩, ⟨by omega, by omega, by omega, by omega⟩⟩

/-- C1 witness: a 500 × 500 image with a 200-wide quote of height 30 and a
100-wide author line of height 25 fits for the random seeds 7 and 13. -/
theorem c1_witness :
    quoteInBounds 500 500 200 30 (chooseX 500 200 100 7) (chooseY 500 13) ∧
    authorInBounds 500 500 100 25 (chooseX 500 200 100 7) (chooseY 500 13) :=
  c1_no_clipping_amended 500 500 200 100 30 25 7 13
    (by decide) (by decide) (by decide) (by decide)

/-- C7: with the multi-component output directory `./a/b`, `make_meme` writes
the image under `b/` — `tempfile.NamedTemporaryFile` receives only
`Path(output_dir).name` as its directory — while it returns the path
`a/b/<fname>`; the two disagree, so the output file does not exist at the
returned path.  With a single-component directory such as `./output` the two
coincide, which is why every in-repo caller appears to work. -/
theorem c7_saved_path_mismatch :
    (make_meme (toL "./a/b") 400 300 (toL "q") (toL "au") 500 50 40 0 0 (toL "meme_1.jpg")).savedAt
      ≠ (make_meme (toL "./a/b") 400 300 (toL "q") (toL "au") 500 50 40 0 0 (toL "meme_1.jpg")).returned ∧
    (make_meme (toL "./a/b") 400 300 (toL "q") (toL "au") 500 50 40 0 0 (toL "meme_1.jpg")).savedAt
      = toL "b/meme_1.jpg" ∧
    (make_meme (toL "./a/b") 400 300 (toL "q") (toL "au") 500 50 40 0 0 (toL "meme_1.jpg")).returned
      = toL "a/b/meme_1.jpg" ∧
    (make_meme (toL "./output") 400 300 (toL "q") (toL "au") 500 50 40 0 0 (toL "meme_1.jpg")).savedAt
      = (make_meme (toL "./output") 400 300 (toL "q") (toL "au") 500 50 40 0 0 (toL "meme_1.jpg")).returned := by
  decide

/-- C10: `meme_post` answers 400 when `image_url`, `body` or `author` is
missing or empty, answers 400 when the image fetch status is not 200, and
only with all three fields present and a 200 fetch does it run `make_meme`
and render the result page with the returned path. -/
theorem c10_meme_post (image_url body author : Option Str) (status : Nat)
    (img : Nat × Nat) (width tw aw rx ry : Int) (fname : Str) :
    ((falsyForm image_url || falsyForm body || falsyForm author) = true →
      meme_post image_url body author status img width tw aw rx ry fname =
        .badRequest (toL "Missing info.")) ∧
    ((falsyForm image_url || falsyForm body || falsyForm author) = false →
      status ≠ 200 →
      meme_post image_url body author status img width tw aw rx ry fname =
        .badRequest (toL "Error getting the image")) ∧
    ((falsyForm image_url || falsyForm body || falsyForm author) = false →
      status = 200 →
      meme_post image_url body author status img width tw aw rx ry fname =
        .rendered (make_meme (toL "./static") img.1 img.2 (body.getD [])
          (author.getD []) width tw aw rx ry fname).returned) := by
  refine ⟨?_, ?_, ?_⟩
  · intro h
    unfold meme_post
    rw [if_pos h]
  · intro h hs
    unfold meme_post
    rw [if_neg (by simp [h]), if_pos hs]
  · intro h hs
    unfold meme_post
    rw [if_neg (by simp [h]), if_neg (by simp [hs])]

/-- C10 witness: all fields present and a 200 fetch render the page; an
empty author yields the 400 response. -/
theorem c10_witness :
    meme_post (some (toL "http://x/i.jpg")) (some (toL "q")) (some (toL "au"))
        200 (400, 300) 500 50 40 0 0 (toL "meme_1.jpg") =
      .rendered (make_meme (toL "./static") 400 300 (toL "q") (toL "au")
        500 50 40 0 0 (toL "meme_1.jpg")).returned ∧
    meme_post (some (toL "http://x/i.jpg")) (some (toL "q")) (some [])
        200 (400, 300) 500 50 40 0 0 (toL "meme_1.jpg") =
      .badRequest (toL "Missing info.") :=
  ⟨(c10_meme_post (some (toL "http://x/i.jpg")) (some (toL "q")) (some (toL "au"))
      200 (400, 300) 500 50 40 0 0 (toL "meme_1.jpg")).2.2 (by decide) rfl,
   (c10_meme_post (some (toL "http://x/i.jpg")) (some (toL "q")) (some [])
      200 (400, 300) 500 50 40 0 0 (toL "meme_1.jpg")).1 (by decide)⟩
